/-
Verification of the ACOEM-API-InfluxDB-Export measurement pipeline.

Shallow embedding of `src/modules/acoemapi.py` (class `AcoemRequest`) and
the relevant parts of `src/main.py`.  Python dicts are modelled as
association lists with Python-dict insertion semantics (update in place,
append new keys at the end); Python floats are modelled as rationals (ℚ):
no claim here depends on rounding, only on values being carried through and
rendered; byte strings are modelled as `String`.
-/

import Mathlib

set_option maxRecDepth 40000

namespace Acoem

/-! ### Python-style string primitives -/

/-- `leadsWith n h` is true when the char list `n` is an initial segment of `h`. -/
def leadsWith : List Char → List Char → Bool
  | [], _ => true
  | _ :: _, [] => false
  | a :: as, b :: bs => a == b && leadsWith as bs

/-- `occursIn n h`: `n` occurs as a contiguous sublist of `h`
(the semantics of Python's `needle in hay` on `bytes`/`str`). -/
def occursIn : List Char → List Char → Bool
  | n, [] => leadsWith n []
  | n, c :: t => leadsWith n (c :: t) || occursIn n t

/-- Python `hay in needle` on strings: substring containment. -/
def strIn (hay needle : String) : Bool :=
  occursIn hay.data needle.data

/-- Auxiliary scan for `pyFind`: first index at which `n` occurs in the hay. -/
def pyFindAux : List Char → List Char → Nat → Option Nat
  | n, [], i => if leadsWith n [] then some i else none
  | n, c :: t, i => if leadsWith n (c :: t) then some i else pyFindAux n t (i + 1)

/-- Python `s.find(sub)`: index of the first occurrence of `sub` in `s`, or `-1`. -/
def pyFind (s sub : String) : Int :=
  match pyFindAux sub.data s.data 0 with
  | some i => (i : Int)
  | none => -1

/-- Clamp a (possibly negative) Python slice index to a `Nat` position in a
string of length `len`: negative indices count from the end. -/
def pyClamp (len : Nat) (i : Int) : Nat :=
  if i < 0 then len - (-i).toNat else i.toNat

/-- Python `s[:j]`. -/
def pySliceTo (s : String) (j : Int) : String :=
  String.mk (s.data.take (pyClamp s.data.length j))

/-- Python `s[j:]`. -/
def pySliceFrom (s : String) (j : Int) : String :=
  String.mk (s.data.drop (pyClamp s.data.length j))

/-! ### Timestamps

The source parses `measurement["TBTimestamp"]` with
`datetime.strptime(_, "%Y-%m-%dT%H:%M:%S%z")` and renders times with
`strftime("%Y-%m-%d %H:%M:%S")` (CSV) and `strftime("%Y-%m-%dT%H:%M:%S%z")`
(JSON).  We model an aware datetime by its components. -/

structure DateTime where
  year : Nat
  month : Nat
  day : Nat
  hour : Nat
  minute : Nat
  second : Nat
  /-- `true` for a `+HHMM` utc offset, `false` for `-HHMM`. -/
  tzPlus : Bool
  tzHH : Nat
  tzMM : Nat
deriving DecidableEq

/-- Zero-pad a natural to two digits (Python `%m`, `%d`, `%H`, `%M`, `%S`). -/
def pad2 (n : Nat) : String :=
  if n < 10 then "0" ++ toString n else toString n

/-- Zero-pad a natural to four digits (Python `%Y`). -/
def pad4 (n : Nat) : String :=
  if n < 10 then "000" ++ toString n
  else if n < 100 then "00" ++ toString n
  else if n < 1000 then "0" ++ toString n
  else toString n

/-- `strftime("%Y-%m-%d %H:%M:%S")`, the CSV timestamp cell. -/
def strftimeCsv (t : DateTime) : String :=
  pad4 t.year ++ "-" ++ pad2 t.month ++ "-" ++ pad2 t.day ++ " " ++
    pad2 t.hour ++ ":" ++ pad2 t.minute ++ ":" ++ pad2 t.second

/-- `strftime("%Y-%m-%dT%H:%M:%S%z")`, the JSON timestamp key. -/
def strftimeZ (t : DateTime) : String :=
  pad4 t.year ++ "-" ++ pad2 t.month ++ "-" ++ pad2 t.day ++ "T" ++
    pad2 t.hour ++ ":" ++ pad2 t.minute ++ ":" ++ pad2 t.second ++
    (if t.tzPlus then "+" else "-") ++ pad2 t.tzHH ++ pad2 t.tzMM

/-- Read exactly `n` decimal digits from the front of a char list. -/
def readDigits : Nat → List Char → Option (Nat × List Char)
  | 0, cs => some (0, cs)
  | _ + 1, [] => none
  | n + 1, c :: cs =>
    if c.isDigit then
      match readDigits n cs with
      | some (v, rest) => some ((c.toNat - 48) * 10 ^ n + v, rest)
      | none => none
    else none

/-- Expect a literal character at the front of a char list. -/
def expectChar (c : Char) : List Char → Option (List Char)
  | [] => none
  | x :: xs => if x == c then some xs else none

/-- `datetime.strptime(s, "%Y-%m-%dT%H:%M:%S%z")` for the canonical
`±HHMM` offset form the API uses; `none` models the `ValueError`. -/
def strptime (s : String) : Option DateTime := do
  let (y, r) ← readDigits 4 s.data
  let r ← expectChar '-' r
  let (mo, r) ← readDigits 2 r
  let r ← expectChar '-' r
  let (d, r) ← readDigits 2 r
  let r ← expectChar 'T' r
  let (h, r) ← readDigits 2 r
  let r ← expectChar ':' r
  let (mi, r) ← readDigits 2 r
  let r ← expectChar ':' r
  let (se, r) ← readDigits 2 r
  let (plus, r) ← match r with
    | '+' :: rest => some (true, rest)
    | '-' :: rest => some (false, rest)
    | _ => none
  let (zh, r) ← readDigits 2 r
  let (zm, r) ← readDigits 2 r
  match r with
  | [] => some ⟨y, mo, d, h, mi, se, plus, zh, zm⟩
  | _ :: _ => none

/-! ### Rendering numbers

Python renders a float value `v` in an f-string as `repr(v)`; for the
decimal-exact values this program transports, that is the sign, the integer
part, a dot, and the fractional digits (at least one, so `10.0` not `10`).
We model float values as `ℚ` and render the fractional digits by long
division, stopping at remainder `0` (fuel-bounded to stay total). -/

/-- Fractional decimal digits of `r / d` by long division (fuel-bounded). -/
def fracDigits : Nat → Nat → Nat → List Char
  | 0, _, _ => []
  | fuel + 1, r, d =>
    if r = 0 then []
    else Char.ofNat (48 + r * 10 / d) :: fracDigits fuel (r * 10 % d) d

/-- Decimal rendering of a rational, modelling Python's `repr` on the
decimal-exact floats this program carries (`10.0`, `9.5`, `0.1`, …). -/
def renderNum (q : ℚ) : String :=
  let sign := if q < 0 then "-" else ""
  let n := q.num.natAbs
  let d := q.den
  let frac := if n % d = 0 then "0" else String.mk (fracDigits 17 (n % d) d)
  sign ++ toString (n / d) ++ "." ++ frac

/-! ### Python dicts as association lists -/

/-- Python dict assignment `m[k] = v`: update in place if the key is
present, else append at the end. -/
def dinsert {α : Type} : List (String × α) → String → α → List (String × α)
  | [], k, v => [(k, v)]
  | e :: rest, k, v => if e.1 = k then (k, v) :: rest else e :: dinsert rest k v

/-- Python dict lookup `m[k]` (first binding wins; dicts built with
`dinsert` never hold a key twice). -/
def dlookup {α : Type} : List (String × α) → String → Option α
  | [], _ => none
  | e :: rest, k => if e.1 = k then some e.2 else dlookup rest k

/-- `list(m.keys())`. -/
def dkeys {α : Type} (m : List (String × α)) : List String :=
  m.map Prod.fst

/-! ### Data model -/

/-- One raw channel sub-record of an API measurement record.  The four
numeric slots other than `PreScaled` are optional because the payload may
carry `null`; `float(None)` then raises (modelled as a decode error). -/
structure RawChannel where
  sensorName : String
  unitName : String
  preScaled : Option ℚ
  scaled : Option ℚ
  slope : Option ℚ
  offset : Option ℚ
  flags : List String
deriving DecidableEq

/-- One raw measurement record from the API payload. -/
structure RawRecord where
  tbTimestamp : String
  latitude : Option ℚ
  longitude : Option ℚ
  altitude : Option ℚ
  channels : List RawChannel
deriving DecidableEq

/-- The `measurement_container` dict: one normalized Point. -/
structure Point where
  time : DateTime
  measurement : String
  fields : List (String × ℚ)
  tags : List (String × String)
deriving DecidableEq

/-- Errors the decoding loop of `dl_station_measurements` can raise. -/
inductive DecodeErr
  /-- `datetime.strptime` raised `ValueError` on this timestamp string. -/
  | timestampParse (s : String)
  /-- `float(None)` raised `TypeError`. -/
  | floatOfNone
  /-- `channel["Flags"][0]` raised `IndexError` on an empty flag list. -/
  | indexError
deriving DecidableEq

/-- An HTTP response from the measurement endpoint: status code, raw body
(bytes, modelled as a string) and the records `.json()` would yield. -/
structure Response where
  statusCode : Nat
  content : String
  payload : List RawRecord
deriving DecidableEq

/-- The mutable state of an `AcoemRequest` instance. -/
structure ApiState where
  stationMeta : List (String × List (String × String))
  measurementData : List (String × List Point)
deriving DecidableEq

/-! ### The channel decoder (`dl_station_measurements`, lines 215-267) -/

/-- `float(x)` on an optional numeric payload value: raises on `None`. -/
def pyFloat : Option ℚ → Except DecodeErr ℚ
  | none => .error .floatOfNone
  | some q => .ok q

/-- The location fields: for each of Latitude/Longitude/Altitude present and
non-null, `fields[key] = float(value)` (lines 227-230). -/
def locFields (r : RawRecord) : List (String × ℚ) :=
  [("Latitude", r.latitude), ("Longitude", r.longitude), ("Altitude", r.altitude)].foldl
    (fun acc kv =>
      match kv.2 with
      | none => acc
      | some v => dinsert acc kv.1 v)
    []

/-- The composite field key `f'{SensorName} {measurement_type} [{UnitName}]'`. -/
def channelKey (c : RawChannel) (measurementType : String) : String :=
  c.sensorName ++ " " ++ measurementType ++ " [" ++ c.unitName ++ "]"

/-- The flag string of lines 253-256: `Flags[0]`, then `f"{acc}, {flag}"`
for each further flag. -/
def flagJoin (f0 : String) (rest : List String) : String :=
  rest.foldl (fun acc f => acc ++ ", " ++ f) f0

/-- Decode one channel into the accumulated `(fields, tags)` dicts
(lines 233-259).  A channel with a null `PreScaled` contributes nothing. -/
def decodeChannel (c : RawChannel) (acc : List (String × ℚ) × List (String × String)) :
    Except DecodeErr (List (String × ℚ) × List (String × String)) :=
  match c.preScaled with
  | none => .ok acc
  | some p =>
    match pyFloat c.scaled with
    | .error e => .error e
    | .ok s =>
      match pyFloat c.slope with
      | .error e => .error e
      | .ok sl =>
        match pyFloat c.offset with
        | .error e => .error e
        | .ok o =>
          let fields :=
            dinsert (dinsert (dinsert (dinsert acc.1 (channelKey c "PreScaled") p)
              (channelKey c "Scaled") s) (channelKey c "Slope") sl) (channelKey c "Offset") o
          if "Valid" ∈ c.flags then
            .ok (fields, dinsert acc.2 (c.sensorName ++ " Flag") "Valid")
          else
            match c.flags with
            | [] => .error .indexError
            | f0 :: rest =>
              .ok (fields, dinsert acc.2 (c.sensorName ++ " Flag") (flagJoin f0 rest))

/-- Decode all channels of a record in order; the first raise aborts. -/
def decodeChannels (cs : List RawChannel)
    (acc : List (String × ℚ) × List (String × String)) :
    Except DecodeErr (List (String × ℚ) × List (String × String)) :=
  match cs with
  | [] => .ok acc
  | c :: rest =>
    match decodeChannel c acc with
    | .error e => .error e
    | .ok acc2 => decodeChannels rest acc2

/-- Decode one raw record into `some` Point, or `none` when its fields dict
ends up empty (lines 215-267; the record is then discarded). -/
def decodeRecord (meta : List (String × String)) (r : RawRecord) :
    Except DecodeErr (Option Point) :=
  match strptime r.tbTimestamp with
  | none => .error (.timestampParse r.tbTimestamp)
  | some t =>
    match decodeChannels r.channels (locFields r, []) with
    | .error e => .error e
    | .ok (fields, tags) =>
      let tags := meta.foldl (fun acc kv => dinsert acc kv.1 kv.2) tags
      if fields.isEmpty then
        .ok none
      else
        .ok (some ⟨t, "ACOEM UK Systems", fields, tags⟩)

/-- The record loop of `dl_station_measurements`: append each decoded Point
to the station's dataset, skipping discarded records. -/
def processRecords (meta : List (String × String)) (rs : List RawRecord)
    (acc : List Point) : Except DecodeErr (List Point) :=
  match rs with
  | [] => .ok acc
  | r :: rest =>
    match decodeRecord meta r with
    | .error e => .error e
    | .ok none => processRecords meta rest acc
    | .ok (some p) => processRecords meta rest (acc ++ [p])

/-- The "no data" marker byte string of lines 207-208. -/
def noDataSentinel : String := "NO DATA WAS FOUND FOR YOUR GIVEN PARAMETERS"

/-- `data_req_success` (lines 205-209): status 200 and the body is *not* a
substring of the sentinel (`content not in b"NO DATA …"` is a Python bytes
containment test, not an equality test). -/
def dataReqSuccess (resp : Response) : Bool :=
  resp.statusCode == 200 && !(strIn resp.content noDataSentinel)

/-- `dl_station_measurements` (lines 127-267) for one station `id` given the
response the API returned.  On success the station's dataset is set to the
decoded Points; otherwise the state is returned untouched.  The station `id`
is looked up in `station_meta` (`main.py` only calls this with ids drawn
from `station_meta`'s keys). -/
def dl_station_measurements (st : ApiState) (id : String) (resp : Response) :
    Except DecodeErr ApiState :=
  if dataReqSuccess resp then
    match processRecords ((dlookup st.stationMeta id).getD []) resp.payload [] with
    | .error e => .error e
    | .ok pts => .ok { st with measurementData := dinsert st.measurementData id pts }
  else
    .ok st

/-! ### Schema inference (`get_key_classifications`, lines 437-460) -/

/-- Append a key to an ordered key list if it is not already present. -/
def addNew (acc : List String) (k : String) : List String :=
  if k ∈ acc then acc else acc ++ [k]

/-- `get_key_classifications` on a station's dataset: classify every
observed key as a field key or a tag key, in first-seen order. -/
def get_key_classifications (pts : List Point) : List String × List String :=
  pts.foldl
    (fun keys m =>
      ((dkeys m.fields).foldl addNew keys.1, (dkeys m.tags).foldl addNew keys.2))
    ([], [])

/-! ### CSV formatter (`format_as_csv`, lines 462-538) -/

/-- A merged dict value: a float (from `fields`) or a string (from `tags`). -/
def renderVal : ℚ ⊕ String → String
  | .inl q => renderNum q
  | .inr s => s

/-- `combined_values = {**measurement["fields"], **measurement["tags"]}`:
fields first, then the tags merged on top (tags overwrite shared keys). -/
def combinedValues (m : Point) : List (String × (ℚ ⊕ String)) :=
  m.tags.foldl (fun acc kv => dinsert acc kv.1 (.inr kv.2))
    (m.fields.map fun kv => (kv.1, .inl kv.2))

/-- The cell emitted for one Point and one non-Timestamp header key
(lines 529-536): unquoted merged value if the key is also a field key,
quoted merged value if only present in the merged dict, else empty. -/
def csvValue (m : Point) (key : String) : String :=
  let combined := combinedValues m
  if key ∈ dkeys combined ∧ key ∈ dkeys m.fields then
    renderVal ((dlookup combined key).getD (.inr ""))
  else if key ∈ dkeys combined then
    "\"" ++ renderVal ((dlookup combined key).getD (.inr "")) ++ "\""
  else
    ""

/-- One data row of the CSV (lines 521-537): the timestamp cell followed by
one cell per non-Timestamp header column, `", "`-separated, then a newline. -/
def csvRow (hdrTail : List String) (m : Point) : String :=
  hdrTail.foldl (fun acc key => acc ++ ", " ++ csvValue m key) (strftimeCsv m.time)
    ++ "\n"

/-- `variables_measured` (lines 495-499): from each field key containing
`"PreScaled"`, register `key[:i-1] ↦ key[unit_index:]` where `i` is the
index of `"PreScaled"` and `unit_index` the index of `"["`. -/
def variablesMeasured (fieldKeys : List String) : List (String × String) :=
  fieldKeys.foldl
    (fun vm fieldKey =>
      let i := pyFind fieldKey "PreScaled"
      if i ≠ -1 then
        dinsert vm (pySliceTo fieldKey (i - 1)) (pySliceFrom fieldKey (pyFind fieldKey "["))
      else vm)
    []

/-- `extra_tags` (lines 500-505): every field or tag key containing neither
`"["` nor `"Flag"`, fields first, in order, with no deduplication. -/
def extraTags (keys : List String × List String) : List String :=
  (keys.1 ++ keys.2).foldl
    (fun et tag =>
      if pyFind tag "[" == -1 && pyFind tag "Flag" == -1 then et ++ [tag] else et)
    []

/-- The fixed per-variable column order of line 491. -/
def measurementOrder : List String := ["PreScaled", "Scaled", "Flag", "Slope", "Offset"]

/-- `csv_header` (lines 490-515): `Timestamp`, five columns per measured
variable (unit suffix on all but `Flag`), then the extra tag columns. -/
def csvHeader (keys : List String × List String) : List String :=
  let vm := variablesMeasured keys.1
  "Timestamp" ::
    ((dkeys vm).foldl
      (fun hdr v =>
        hdr ++ measurementOrder.map fun mt =>
          let unit := if mt ∉ ["Flag"] then " " ++ ((dlookup vm v).getD "") else ""
          v ++ " " ++ mt ++ unit)
      []
    ++ extraTags keys)

/-- `format_as_csv` (lines 462-538): the header line then one row per Point,
Points in reverse of the stored (API) order. -/
def format_as_csv (pts : List Point) (keys : List String × List String) : String :=
  let hdr := csvHeader keys
  let headerLine := (hdr.drop 1).foldl (fun acc col => acc ++ ", " ++ col) (hdr.headD "")
  pts.reverse.foldl (fun acc m => acc ++ csvRow (hdr.drop 1) m) (headerLine ++ "\n")

/-! ### JSON formatter (`format_as_json`, lines 540-565) -/

/-- The two-key container built for each Point (lines 560-563). -/
structure JsonRecord where
  data : List (String × ℚ)
  status : List (String × String)
deriving DecidableEq

/-- The insertion loop of `format_as_json` over an already-reversed list. -/
def jfold (pts : List Point) (acc : List (String × JsonRecord)) :
    List (String × JsonRecord) :=
  match pts with
  | [] => acc
  | m :: rest => jfold rest (dinsert acc (strftimeZ m.time) ⟨m.fields, m.tags⟩)

/-- `format_as_json` (lines 540-565): map each Point's `%Y-%m-%dT%H:%M:%S%z`
timestamp string to `{Data, Status}`, Points in reverse of stored order. -/
def format_as_json (pts : List Point) : List (String × JsonRecord) :=
  jfold pts.reverse []

/-! ### Reference definitions used to state the claims -/

/-- First-seen deduplication of a key list: keep the first occurrence of
each key, drop the rest. -/
def dedupFirst : List String → List String
  | [] => []
  | k :: ks => k :: dedupFirst (ks.filter fun x => x ≠ k)
termination_by l => l.length
decreasing_by
  simpa using Nat.lt_succ_of_le (List.length_filter_le _ _)

/-- Comma-space join of a list of strings, as a structural recursion. -/
def joinComma : List String → String
  | [] => ""
  | [f] => f
  | f :: g :: rest => f ++ ", " ++ joinComma (g :: rest)

/-! ### Dictionary lemmas -/

theorem dkeys_nil {α : Type} : dkeys ([] : List (String × α)) = [] := rfl

theorem dkeys_cons {α : Type} (e : String × α) (rest : List (String × α)) :
    dkeys (e :: rest) = e.1 :: dkeys rest := rfl

theorem dkeys_append {α : Type} (a b : List (String × α)) :
    dkeys (a ++ b) = dkeys a ++ dkeys b := by
  simp [dkeys]

theorem dlookup_dinsert {α : Type} (m : List (String × α)) (k k' : String) (v : α) :
    dlookup (dinsert m k v) k' = if k' = k then some v else dlookup m k' := by
  induction m with
  | nil =>
    by_cases h : k' = k
    · simp [dinsert, dlookup, h]
    · simp [dinsert, dlookup, h, Ne.symm h]
  | cons e rest ih =>
    by_cases he : e.1 = k
    · simp only [dinsert, if_pos he, dlookup]
      by_cases h : k' = k
      · simp [h]
      · have h2 : ¬ e.1 = k' := by rw [he]; exact Ne.symm h
        simp [h, Ne.symm h, h2]
    · simp only [dinsert, if_neg he, dlookup]
      by_cases h2 : e.1 = k'
      · have hk : ¬ k' = k := fun hh => he (h2.trans hh)
        simp [h2, hk]
      · simp [h2, ih]

theorem mem_dkeys_dinsert {α : Type} (m : List (String × α)) (k k' : String) (v : α) :
    k' ∈ dkeys (dinsert m k v) ↔ k' = k ∨ k' ∈ dkeys m := by
  induction m with
  | nil => simp [dinsert, dkeys_cons, dkeys_nil]
  | cons e rest ih =>
    by_cases he : e.1 = k
    · simp only [dinsert]
      rw [if_pos he]
      simp only [dkeys_cons, List.mem_cons, he]
      tauto
    · simp only [dinsert]
      rw [if_neg he]
      simp only [dkeys_cons, List.mem_cons]
      rw [ih]
      tauto

theorem dinsert_of_not_mem {α : Type} (m : List (String × α)) (k : String) (v : α)
    (h : k ∉ dkeys m) : dinsert m k v = m ++ [(k, v)] := by
  induction m with
  | nil => simp [dinsert]
  | cons e rest ih =>
    rw [dkeys_cons, List.mem_cons] at h
    push_neg at h
    have he : ¬ e.1 = k := fun hh => h.1 hh.symm
    simp [dinsert, he, ih h.2]

theorem dlookup_eq_none_iff {α : Type} (m : List (String × α)) (k : String) :
    dlookup m k = none ↔ k ∉ dkeys m := by
  induction m with
  | nil => simp [dlookup, dkeys_nil]
  | cons e rest ih =>
    by_cases he : e.1 = k
    · simp [dlookup, dkeys_cons, he]
    · simp only [dlookup, if_neg he, dkeys_cons, List.mem_cons, ih]
      constructor
      · intro hk h
        rcases h with h1 | h2
        · exact he h1.symm
        · exact hk h2
      · intro hk h2
        exact hk (Or.inr h2)

theorem mem_of_dlookup_some {α : Type} {m : List (String × α)} {k : String} {v : α}
    (h : dlookup m k = some v) : k ∈ dkeys m := by
  by_contra hk
  rw [(dlookup_eq_none_iff m k).2 hk] at h
  exact Option.noConfusion h

/-! ### String containment lemmas -/

theorem leadsWith_length_le {n h : List Char} (hl : leadsWith n h = true) :
    n.length ≤ h.length := by
  induction n generalizing h with
  | nil => simp
  | cons a as ih =>
    cases h with
    | nil => simp [leadsWith] at hl
    | cons b bs =>
      simp [leadsWith] at hl
      simpa using ih hl.2

theorem leadsWith_eq_of_length {n h : List Char} (hl : leadsWith n h = true)
    (hlen : n.length = h.length) : n = h := by
  induction n generalizing h with
  | nil => cases h with
    | nil => rfl
    | cons b bs => simp at hlen
  | cons a as ih =>
    cases h with
    | nil => simp [leadsWith] at hl
    | cons b bs =>
      simp [leadsWith] at hl
      simp at hlen
      rw [hl.1, ih hl.2 hlen]

theorem leadsWith_refl (l : List Char) : leadsWith l l = true := by
  induction l with
  | nil => rfl
  | cons a as ih => simp [leadsWith, ih]

theorem occursIn_length_le {n h : List Char} (ho : occursIn n h = true) :
    n.length ≤ h.length := by
  induction h with
  | nil =>
    cases n with
    | nil => simp
    | cons a as => simp [occursIn, leadsWith] at ho
  | cons c t ih =>
    simp [occursIn] at ho
    rcases ho with ho | ho
    · exact leadsWith_length_le ho
    · exact Nat.le_succ_of_le (ih ho)

theorem occursIn_eq_of_length {n h : List Char} (ho : occursIn n h = true)
    (hlen : n.length = h.length) : n = h := by
  cases h with
  | nil =>
    cases n with
    | nil => rfl
    | cons a as => simp at hlen
  | cons c t =>
    simp [occursIn] at ho
    rcases ho with ho | ho
    · exact leadsWith_eq_of_length ho hlen
    · exfalso
      have := occursIn_length_le ho
      rw [List.length_cons] at hlen
      omega

theorem occursIn_refl (l : List Char) : occursIn l l = true := by
  cases l with
  | nil => rfl
  | cons c t => simp [occursIn, leadsWith_refl]

theorem strIn_self (s : String) : strIn s s = true := occursIn_refl s.data

/-! ### Join lemmas -/

theorem joinComma_append_head (a b : String) (rest : List String) :
    joinComma ((a ++ ", " ++ b) :: rest) = a ++ ", " ++ joinComma (b :: rest) := by
  cases rest with
  | nil => rfl
  | cons r rs => simp [joinComma, String.append_assoc]

theorem flagJoin_eq_joinComma (rest : List String) (f0 : String) :
    flagJoin f0 rest = joinComma (f0 :: rest) := by
  induction rest generalizing f0 with
  | nil => rfl
  | cons g rs ih =>
    show flagJoin (f0 ++ ", " ++ g) rs = _
    rw [ih, joinComma_append_head]
    rfl

/-! ### Lemmas about the merged dict of `format_as_csv` -/

theorem dkeys_map_inl (fields : List (String × ℚ)) :
    dkeys (fields.map fun kv => (kv.1, (Sum.inl kv.2 : ℚ ⊕ String))) = dkeys fields := by
  simp [dkeys, List.map_map]

theorem dlookup_map_inl (fields : List (String × ℚ)) (k : String) :
    dlookup (fields.map fun kv => (kv.1, (Sum.inl kv.2 : ℚ ⊕ String))) k
      = (dlookup fields k).map Sum.inl := by
  induction fields with
  | nil => rfl
  | cons e rest ih =>
    by_cases he : e.1 = k <;> simp [dlookup, he, ih]

theorem mem_dkeys_foldIns (tags : List (String × String))
    (base : List (String × (ℚ ⊕ String))) (k : String) :
    k ∈ dkeys (tags.foldl (fun acc kv => dinsert acc kv.1 (Sum.inr kv.2)) base) ↔
      k ∈ dkeys base ∨ k ∈ dkeys tags := by
  induction tags generalizing base with
  | nil => simp [dkeys_nil]
  | cons kv rest ih =>
    simp only [List.foldl_cons, dkeys_cons, List.mem_cons]
    rw [ih, mem_dkeys_dinsert]
    tauto

theorem dlookup_foldIns (tags : List (String × String))
    (base : List (String × (ℚ ⊕ String))) (k : String)
    (h : (dkeys tags).Nodup) :
    dlookup (tags.foldl (fun acc kv => dinsert acc kv.1 (Sum.inr kv.2)) base) k =
      match dlookup tags k with
      | some v => some (Sum.inr v)
      | none => dlookup base k := by
  induction tags generalizing base with
  | nil => simp [dlookup]
  | cons kv rest ih =>
    rw [dkeys_cons, List.nodup_cons] at h
    simp only [List.foldl_cons]
    rw [ih _ h.2]
    by_cases hk : kv.1 = k
    · have hnone : dlookup rest k = none :=
        (dlookup_eq_none_iff _ _).2 (by rw [← hk]; exact h.1)
      simp [dlookup, hk, hnone, dlookup_dinsert]
    · have hne : ¬ k = kv.1 := fun hh => hk hh.symm
      simp only [dlookup, if_neg hk]
      cases hrest : dlookup rest k with
      | some v => simp
      | none => simp [dlookup_dinsert, hne]

theorem mem_dkeys_combined (m : Point) (k : String) :
    k ∈ dkeys (combinedValues m) ↔ k ∈ dkeys m.fields ∨ k ∈ dkeys m.tags := by
  unfold combinedValues
  rw [mem_dkeys_foldIns, dkeys_map_inl]

theorem dlookup_combined (m : Point) (k : String) (ht : (dkeys m.tags).Nodup) :
    dlookup (combinedValues m) k =
      match dlookup m.tags k with
      | some v => some (Sum.inr v)
      | none => (dlookup m.fields k).map Sum.inl := by
  unfold combinedValues
  rw [dlookup_foldIns _ _ _ ht, dlookup_map_inl]

/-! ### Lemmas about first-seen deduplication -/

theorem dedupFirst_cons (k : String) (ks : List String) :
    dedupFirst (k :: ks) = k :: dedupFirst (ks.filter fun x => x ≠ k) := by
  rw [dedupFirst]

theorem mem_dedupFirst (x : String) : ∀ (l : List String), x ∈ dedupFirst l ↔ x ∈ l := by
  intro l
  induction l using dedupFirst.induct with
  | case1 => simp [dedupFirst]
  | case2 k ks ih =>
    rw [dedupFirst_cons]
    simp only [List.mem_cons, ih, List.mem_filter, decide_eq_true_eq]
    constructor
    · rintro (h | ⟨h, _⟩)
      · exact Or.inl h
      · exact Or.inr h
    · rintro (h | h)
      · exact Or.inl h
      · by_cases hk : x = k
        · exact Or.inl hk
        · exact Or.inr ⟨h, hk⟩

theorem dedupFirst_nodup : ∀ (l : List String), (dedupFirst l).Nodup := by
  intro l
  induction l using dedupFirst.induct with
  | case1 => simp [dedupFirst]
  | case2 k ks ih =>
    rw [dedupFirst_cons]
    refine List.nodup_cons.2 ⟨?_, ih⟩
    intro hmem
    rw [mem_dedupFirst] at hmem
    rcases List.mem_filter.1 hmem with ⟨_, hne⟩
    simp at hne

theorem filter_filter_not_mem (ks acc : List String) (k : String) :
    ks.filter (fun x => x ∉ acc ++ [k]) =
      (ks.filter fun x => x ∉ acc).filter (fun x => x ≠ k) := by
  rw [List.filter_filter]
  apply List.filter_congr
  intro x _
  simp [List.mem_append, not_or, Bool.and_comm]

theorem foldl_addNew_eq (l : List String) : ∀ acc : List String,
    l.foldl addNew acc = acc ++ dedupFirst (l.filter fun x => x ∉ acc) := by
  induction l with
  | nil => intro acc; simp [dedupFirst]
  | cons k ks ih =>
    intro acc
    simp only [List.foldl_cons]
    by_cases hk : k ∈ acc
    · rw [show addNew acc k = acc from if_pos hk, ih]
      congr 2
      simp [List.filter_cons, hk]
    · rw [show addNew acc k = acc ++ [k] from if_neg hk, ih, List.append_assoc]
      congr 1
      rw [filter_filter_not_mem]
      have hfc : (k :: ks).filter (fun x => x ∉ acc) =
          k :: ks.filter (fun x => x ∉ acc) := by
        simp [List.filter_cons, hk]
      rw [hfc, dedupFirst_cons]
      rfl

/-- The keys visited by schema inference, per Point, in order. -/
def visitAll (f : Point → List String) : List Point → List String
  | [] => []
  | m :: rest => f m ++ visitAll f rest

theorem mem_visitAll (f : Point → List String) (k : String) :
    ∀ pts : List Point, k ∈ visitAll f pts ↔ ∃ m ∈ pts, k ∈ f m := by
  intro pts
  induction pts with
  | nil => simp [visitAll]
  | cons m rest ih =>
    simp [visitAll, ih]

theorem foldl_addNew_visit (f : Point → List String) (pts : List Point) :
    ∀ acc, pts.foldl (fun a m => (f m).foldl addNew a) acc =
      (visitAll f pts).foldl addNew acc := by
  induction pts with
  | nil => intro acc; rfl
  | cons m rest ih =>
    intro acc
    simp only [List.foldl_cons, visitAll, List.foldl_append]
    exact ih _

theorem pair_foldl_split (pts : List Point) : ∀ a b : List String,
    pts.foldl
      (fun keys m => ((dkeys m.fields).foldl addNew keys.1, (dkeys m.tags).foldl addNew keys.2))
      (a, b) =
    (pts.foldl (fun x m => (dkeys m.fields).foldl addNew x) a,
     pts.foldl (fun x m => (dkeys m.tags).foldl addNew x) b) := by
  induction pts with
  | nil => intro a b; rfl
  | cons m rest ih =>
    intro a b
    simp only [List.foldl_cons]
    exact ih _ _

theorem filter_not_mem_nil (l : List String) :
    (l.filter fun x => x ∉ ([] : List String)) = l := by
  induction l with
  | nil => rfl
  | cons a as ih => simp [List.filter_cons, ih]

theorem get_key_classifications_eq (pts : List Point) :
    get_key_classifications pts =
      (dedupFirst (visitAll (fun m => dkeys m.fields) pts),
       dedupFirst (visitAll (fun m => dkeys m.tags) pts)) := by
  unfold get_key_classifications
  rw [pair_foldl_split, foldl_addNew_visit, foldl_addNew_visit,
    foldl_addNew_eq, foldl_addNew_eq, filter_not_mem_nil, filter_not_mem_nil]
  rfl

/-! ### Lemmas about the JSON fold -/

theorem find?_append_eq {α : Type} (l1 l2 : List α) (p : α → Bool) :
    (l1 ++ l2).find? p =
      match l1.find? p with
      | some x => some x
      | none => l2.find? p := by
  induction l1 with
  | nil => simp
  | cons a as ih =>
    by_cases h : p a <;> simp [List.find?_cons, h, ih]

theorem jfold_lookup (pts : List Point) : ∀ (acc : List (String × JsonRecord)) (ts : String),
    dlookup (jfold pts acc) ts =
      match pts.reverse.find? (fun m => strftimeZ m.time == ts) with
      | some m => some ⟨m.fields, m.tags⟩
      | none => dlookup acc ts := by
  induction pts with
  | nil => intro acc ts; rfl
  | cons m rest ih =>
    intro acc ts
    simp only [jfold, List.reverse_cons]
    rw [ih, find?_append_eq]
    cases h : rest.reverse.find? (fun m' => strftimeZ m'.time == ts) with
    | some m' => rfl
    | none =>
      by_cases hp : strftimeZ m.time == ts
      · have hts : ts = strftimeZ m.time := (eq_of_beq hp).symm
        simp [List.find?, hp, dlookup_dinsert, hts]
      · have hts : ¬ ts = strftimeZ m.time := by
          intro hh
          exact hp (by rw [hh]; exact beq_self_eq_true _)
        simp [List.find?, hp, dlookup_dinsert, hts]

theorem jfold_fresh (l : List Point) : ∀ acc : List (String × JsonRecord),
    (∀ m ∈ l, strftimeZ m.time ∉ dkeys acc) →
    (l.map fun m => strftimeZ m.time).Nodup →
    jfold l acc =
      acc ++ l.map (fun m => (strftimeZ m.time, (⟨m.fields, m.tags⟩ : JsonRecord))) := by
  induction l with
  | nil => intro acc _ _; simp [jfold]
  | cons m rest ih =>
    intro acc hfresh hnodup
    rw [List.map_cons, List.nodup_cons] at hnodup
    have hkey : strftimeZ m.time ∉ dkeys acc := hfresh m (by simp)
    have hstep : jfold (m :: rest) acc =
        jfold rest (acc ++ [(strftimeZ m.time, (⟨m.fields, m.tags⟩ : JsonRecord))]) := by
      simp only [jfold]
      rw [dinsert_of_not_mem _ _ _ hkey]
    have hf2 : ∀ m' ∈ rest, strftimeZ m'.time ∉
        dkeys (acc ++ [(strftimeZ m.time, (⟨m.fields, m.tags⟩ : JsonRecord))]) := by
      intro m' hm'
      rw [dkeys_append]
      simp only [List.mem_append, dkeys_cons, dkeys_nil, List.mem_singleton]
      push_neg
      refine ⟨hfresh m' (List.mem_cons_of_mem _ hm'), ?_⟩
      intro hh
      exact hnodup.1 (hh ▸ List.mem_map_of_mem _ hm')
    rw [hstep, ih _ hf2 hnodup.2]
    simp

/-! ### Decoder lemmas -/

theorem decodeRecord_some_fields_ne (meta : List (String × String)) (r : RawRecord)
    (p : Point) (h : decodeRecord meta r = .ok (some p)) : p.fields ≠ [] := by
  unfold decodeRecord at h
  cases hts : strptime r.tbTimestamp with
  | none => rw [hts] at h; exact absurd h (by simp)
  | some t =>
    rw [hts] at h
    cases hch : decodeChannels r.channels (locFields r, []) with
    | error e => rw [hch] at h; exact absurd h (by simp)
    | ok acc =>
      obtain ⟨fields, tags⟩ := acc
      rw [hch] at h
      simp only at h
      by_cases hfe : fields.isEmpty
      · rw [if_pos hfe] at h
        exact absurd h (by simp)
      · rw [if_neg hfe] at h
        have hp : p = ⟨t, "ACOEM UK Systems", fields,
            meta.foldl (fun acc kv => dinsert acc kv.1 kv.2) tags⟩ := by
          cases h
          rfl
        rw [hp]
        intro hcon
        simp only at hcon
        rw [hcon] at hfe
        exact hfe rfl

theorem processRecords_preserves_nonempty (meta : List (String × String))
    (rs : List RawRecord) : ∀ (acc res : List Point),
    processRecords meta rs acc = .ok res →
    (∀ p ∈ acc, p.fields ≠ []) → ∀ p ∈ res, p.fields ≠ [] := by
  induction rs with
  | nil =>
    intro acc res h hacc
    unfold processRecords at h
    cases h
    exact hacc
  | cons r rest ih =>
    intro acc res h hacc
    unfold processRecords at h
    cases hd : decodeRecord meta r with
    | error e => rw [hd] at h; exact absurd h (by simp)
    | ok o =>
      rw [hd] at h
      cases o with
      | none => exact ih acc res h hacc
      | some p =>
        refine ih (acc ++ [p]) res h ?_
        intro q hq
        rcases List.mem_append.1 hq with hq | hq
        · exact hacc q hq
        · rw [List.mem_singleton.1 hq]
          exact decodeRecord_some_fields_ne meta r p hd

theorem decodeChannel_err_of_empty_flags (c : RawChannel)
    (hp : c.preScaled ≠ none) (hfl : c.flags = [])
    (acc : List (String × ℚ) × List (String × String)) :
    ∃ e, decodeChannel c acc = .error e := by
  cases hps : c.preScaled with
  | none => exact absurd hps hp
  | some p =>
    unfold decodeChannel
    rw [hps]
    cases hs : c.scaled with
    | none => exact ⟨.floatOfNone, by simp [pyFloat]⟩
    | some s =>
      cases hsl : c.slope with
      | none => exact ⟨.floatOfNone, by simp [pyFloat]⟩
      | some sl =>
        cases ho : c.offset with
        | none => exact ⟨.floatOfNone, by simp [pyFloat]⟩
        | some o =>
          have hv : "Valid" ∉ c.flags := by rw [hfl]; simp
          refine ⟨.indexError, ?_⟩
          simp only [pyFloat]
          rw [if_neg hv, hfl]

theorem decodeChannels_err (cs : List RawChannel) :
    ∀ acc, (∃ c ∈ cs, c.preScaled ≠ none ∧ c.flags = []) →
    ∃ e, decodeChannels cs acc = .error e := by
  induction cs with
  | nil =>
    intro acc h
    obtain ⟨c, hc, _⟩ := h
    exact absurd hc (by simp)
  | cons c0 rest ih =>
    intro acc h
    unfold decodeChannels
    cases hd : decodeChannel c0 acc with
    | error e => exact ⟨e, rfl⟩
    | ok acc2 =>
      obtain ⟨c, hc, hcp, hcf⟩ := h
      rcases List.mem_cons.1 hc with hc | hc
      · obtain ⟨e, he⟩ := decodeChannel_err_of_empty_flags c0 (hc ▸ hcp) (hc ▸ hcf) acc
        rw [he] at hd
        exact absurd hd (by simp)
      · exact ih acc2 ⟨c, hc, hcp, hcf⟩

/-! ### The §8 end-to-end example -/

/-- The example channel of spec §8: `PM25`, PreScaled 10.0, Scaled 9.5,
Slope 1.0, Offset 0.1, flags `["Valid"]`, unit `ug/m3`. -/
def exChannel : RawChannel :=
  { sensorName := "PM25", unitName := "ug/m3", preScaled := some (mkRat 10 1),
    scaled := some (mkRat 19 2), slope := some (mkRat 1 1), offset := some (mkRat 1 10),
    flags := ["Valid"] }

/-- The example raw record of spec §8. -/
def exRecord : RawRecord :=
  { tbTimestamp := "2021-06-01T00:00:00+0000", latitude := none,
    longitude := none, altitude := none, channels := [exChannel] }

/-- The example station metadata of spec §8. -/
def exMeta : List (String × String) := [("SerialNumber", "ABC123")]

/-- The Point the §8 example record decodes to. -/
def exPoint : Point :=
  { time := ⟨2021, 6, 1, 0, 0, 0, true, 0, 0⟩,
    measurement := "ACOEM UK Systems",
    fields := [("PM25 PreScaled [ug/m3]", mkRat 10 1), ("PM25 Scaled [ug/m3]", mkRat 19 2),
               ("PM25 Slope [ug/m3]", mkRat 1 1), ("PM25 Offset [ug/m3]", mkRat 1 10)],
    tags := [("PM25 Flag", "Valid"), ("SerialNumber", "ABC123")] }

/-- A `String` is determined by its character data. -/
theorem string_eq_of_data {a b : String} (h : a.data = b.data) : a = b := by
  cases a
  cases b
  exact congrArg String.mk h

/-! ### Shared concrete inputs for the witnesses -/

/-- A state with one registered station and no measurements yet. -/
def skipState : ApiState :=
  { stationMeta := [("STN1", [("SerialNumber", "ABC123")])], measurementData := [] }

/-- A 200 response whose body is exactly the "no data" marker. -/
def noDataResp : Response :=
  { statusCode := 200, content := noDataSentinel, payload := [] }

/-- A 200 response with an empty body. -/
def emptyBodyResp : Response :=
  { statusCode := 200, content := "", payload := [] }

/-- A 200 response whose body strictly contains the "no data" marker. -/
def supersetResp : Response :=
  { statusCode := 200, content := noDataSentinel ++ "!", payload := [] }

/-- A channel whose PreScaled value is null. -/
def nullChannel : RawChannel :=
  { sensorName := "NO2", unitName := "ppb", preScaled := none,
    scaled := none, slope := none, offset := none, flags := [] }

/-- An available channel with two flags, neither of them `"Valid"`. -/
def multiFlagChannel : RawChannel :=
  { sensorName := "PM25", unitName := "ug/m3", preScaled := some (mkRat 10 1),
    scaled := some (mkRat 19 2), slope := some (mkRat 1 1), offset := some (mkRat 1 10),
    flags := ["Zeroing", "Span"] }

/-- An available channel whose flag list is empty. -/
def emptyFlagsChannel : RawChannel :=
  { sensorName := "O3", unitName := "ppb", preScaled := some (mkRat 5 1),
    scaled := some (mkRat 5 1), slope := some (mkRat 1 1), offset := some (mkRat 0 1),
    flags := [] }

/-- A record containing `emptyFlagsChannel`. -/
def emptyFlagsRecord : RawRecord :=
  { tbTimestamp := "2021-06-01T00:00:00+0000", latitude := none, longitude := none,
    altitude := none, channels := [emptyFlagsChannel] }

/-! ### Claim C3 -/

/-- C3: a non-200 response, or a body equal to the literal marker
`NO DATA WAS FOUND FOR YOUR GIVEN PARAMETERS`, makes `dl_station_measurements`
return without raising and with the state untouched: no entry is added to
`measurement_data` for that station, so it is absent from the day's emitted
outputs and the orchestrator goes on to the next station. -/
theorem dl_station_measurements_skips_no_data (st : ApiState) (id : String)
    (resp : Response)
    (h : resp.statusCode ≠ 200 ∨ resp.content = noDataSentinel) :
    dl_station_measurements st id resp = .ok st := by
  have hfail : dataReqSuccess resp = false := by
    unfold dataReqSuccess
    rcases h with h | h
    · have h2 : (resp.statusCode == 200) = false := by simp [h]
      rw [h2, Bool.false_and]
    · rw [h, strIn_self]
      simp
  unfold dl_station_measurements
  rw [hfail]
  simp

/-- Witness for C3: the marker body on a concrete state. -/
theorem dl_station_measurements_skips_no_data_witness :
    dl_station_measurements skipState "STN1" noDataResp = .ok skipState :=
  dl_station_measurements_skips_no_data skipState "STN1" noDataResp (Or.inr rfl)

/-! ### Claim C4 -/

/-- C4: a channel whose PreScaled value is null contributes nothing to the
Point being decoded: no fields, and no flag tag either. -/
theorem null_prescaled_contributes_nothing (c : RawChannel)
    (acc : List (String × ℚ) × List (String × String)) (h : c.preScaled = none) :
    decodeChannel c acc = .ok acc := by
  unfold decodeChannel
  rw [h]

/-- Witness for C4 on a concrete unavailable channel. -/
theorem null_prescaled_contributes_nothing_witness :
    decodeChannel nullChannel ([], []) = .ok ([], []) :=
  null_prescaled_contributes_nothing nullChannel ([], []) rfl

/-! ### Claim C5 -/

/-- C5: an available channel (non-null PreScaled, with the payload's other
numeric slots non-null and at least one flag) adds exactly the four fields
PreScaled/Scaled/Slope/Offset under the composite key
`<SensorName> <MeasurementType> [<UnitName>]`, each carried through the
`float` cast, and exactly one tag `<SensorName> Flag` whose value is
`"Valid"` when `"Valid"` occurs anywhere in the flag list and otherwise the
comma-joined concatenation of all flags in original order. -/
theorem available_channel_four_fields_one_tag (c : RawChannel)
    (acc : List (String × ℚ) × List (String × String)) (p s sl o : ℚ)
    (hp : c.preScaled = some p) (hs : c.scaled = some s)
    (hsl : c.slope = some sl) (ho : c.offset = some o) (hfl : c.flags ≠ []) :
    decodeChannel c acc = .ok
      (dinsert (dinsert (dinsert (dinsert acc.1 (channelKey c "PreScaled") p)
          (channelKey c "Scaled") s) (channelKey c "Slope") sl) (channelKey c "Offset") o,
       dinsert acc.2 (c.sensorName ++ " Flag")
         (if "Valid" ∈ c.flags then "Valid" else joinComma c.flags)) := by
  unfold decodeChannel
  rw [hp, hs, hsl, ho]
  simp only [pyFloat]
  by_cases hv : "Valid" ∈ c.flags
  · simp [hv]
  · cases hflags : c.flags with
    | nil => exact absurd hflags hfl
    | cons f0 rest =>
      rw [hflags] at hv
      simp [hv, flagJoin_eq_joinComma]

/-- Witness for C5 on a concrete two-flag channel. -/
theorem available_channel_four_fields_one_tag_witness :
    decodeChannel multiFlagChannel ([], []) = .ok
      ([("PM25 PreScaled [ug/m3]", mkRat 10 1), ("PM25 Scaled [ug/m3]", mkRat 19 2),
        ("PM25 Slope [ug/m3]", mkRat 1 1), ("PM25 Offset [ug/m3]", mkRat 1 10)],
       [("PM25 Flag", "Zeroing, Span")]) := by
  rw [available_channel_four_fields_one_tag multiFlagChannel ([], [])
    (mkRat 10 1) (mkRat 19 2) (mkRat 1 1) (mkRat 1 10) rfl rfl rfl rfl (by decide)]
  rfl

/-! ### Claim C9 -/

/-- C9: decoding is only total when every available channel has a non-empty
flag list: a record containing an available channel with an empty `Flags`
list makes the decoder raise (the flag-string code indexes `Flags[0]`)
instead of producing a Point. -/
theorem empty_flags_channel_raises (meta : List (String × String)) (r : RawRecord)
    (h : ∃ c ∈ r.channels, c.preScaled ≠ none ∧ c.flags = []) :
    ∃ e, decodeRecord meta r = .error e := by
  unfold decodeRecord
  cases hts : strptime r.tbTimestamp with
  | none => exact ⟨.timestampParse r.tbTimestamp, rfl⟩
  | some t =>
    obtain ⟨e, he⟩ := decodeChannels_err r.channels (locFields r, []) h
    exact ⟨e, by rw [he]⟩

/-- Witness for C9 on a concrete empty-flag record. -/
theorem empty_flags_channel_raises_witness :
    ∃ e, decodeRecord exMeta emptyFlagsRecord = .error e :=
  empty_flags_channel_raises exMeta emptyFlagsRecord
    ⟨emptyFlagsChannel, by decide, by decide, rfl⟩

/-! ### Claim C10 -/

/-- C10: the "no data" test of lines 205-209 is a bytes containment test,
not an equality test: any 200 response whose body is a contiguous substring
of the marker — the empty body included — is skipped as "no data", while a
body that strictly contains the marker plus extra bytes passes the check and
is processed as a successful data response. -/
theorem no_data_check_is_substring (st : ApiState) (id : String) (resp : Response)
    (h200 : resp.statusCode = 200) :
    (strIn resp.content noDataSentinel = true →
      dl_station_measurements st id resp = .ok st) ∧
    (strIn noDataSentinel resp.content = true → resp.content ≠ noDataSentinel →
      dataReqSuccess resp = true ∧
      dl_station_measurements st id resp =
        match processRecords ((dlookup st.stationMeta id).getD []) resp.payload [] with
        | .error e => .error e
        | .ok pts =>
          .ok { st with measurementData := dinsert st.measurementData id pts }) := by
  constructor
  · intro hsub
    have hfail : dataReqSuccess resp = false := by
      unfold dataReqSuccess
      rw [hsub]
      simp
    unfold dl_station_measurements
    rw [hfail]
    simp
  · intro hsup hne
    have hfalse : strIn resp.content noDataSentinel = false := by
      cases hval : strIn resp.content noDataSentinel with
      | false => rfl
      | true =>
        exfalso
        unfold strIn at hval hsup
        have h1 := occursIn_length_le hval
        have h2 := occursIn_length_le hsup
        have hlen : resp.content.data.length = noDataSentinel.data.length :=
          Nat.le_antisymm h1 h2
        exact hne (string_eq_of_data (occursIn_eq_of_length hval hlen))
    have hsucc : dataReqSuccess resp = true := by
      unfold dataReqSuccess
      rw [h200, hfalse]
      rfl
    refine ⟨hsucc, ?_⟩
    unfold dl_station_measurements
    rw [hsucc]
    simp

/-- Witness for C10: the empty body is skipped; the marker plus one byte
passes the success check. -/
theorem no_data_check_is_substring_witness :
    dl_station_measurements skipState "STN1" emptyBodyResp = .ok skipState ∧
    dataReqSuccess supersetResp = true :=
  ⟨(no_data_check_is_substring skipState "STN1" emptyBodyResp rfl).1 (by decide),
   ((no_data_check_is_substring skipState "STN1" supersetResp rfl).2
      (by decide) (by decide)).1⟩

/-! ### Claim C6 -/

/-- A record whose only channel is unavailable; it decodes to no Point. -/
def emptyRecord : RawRecord :=
  { tbTimestamp := "2021-06-01T00:00:00+0000", latitude := none, longitude := none,
    altitude := none, channels := [nullChannel] }

/-- C6: a Point is only materialized with a non-empty fields dict: a record
whose decoded fields dict is empty yields no Point and leaves the dataset
untouched, and every Point the record loop ever stores has at least one
field. -/
theorem nonempty_fields_invariant :
    (∀ (meta : List (String × String)) (r : RawRecord) (p : Point),
      decodeRecord meta r = .ok (some p) → p.fields ≠ []) ∧
    (∀ (meta : List (String × String)) (r : RawRecord) (t : DateTime)
        (tags : List (String × String)),
      strptime r.tbTimestamp = some t →
      decodeChannels r.channels (locFields r, []) = .ok ([], tags) →
      decodeRecord meta r = .ok none) ∧
    (∀ (meta : List (String × String)) (r : RawRecord) (rest : List RawRecord)
        (acc : List Point),
      decodeRecord meta r = .ok none →
      processRecords meta (r :: rest) acc = processRecords meta rest acc) ∧
    (∀ (meta : List (String × String)) (rs : List RawRecord) (acc res : List Point),
      processRecords meta rs acc = .ok res →
      (∀ p ∈ acc, p.fields ≠ []) → ∀ p ∈ res, p.fields ≠ []) := by
  refine ⟨decodeRecord_some_fields_ne, ?_, ?_, processRecords_preserves_nonempty⟩
  · intro meta r t tags hts hch
    unfold decodeRecord
    rw [hts, hch]
    simp
  · intro meta r rest acc hnone
    show (match decodeRecord meta r with
      | .error e => Except.error e
      | .ok none => processRecords meta rest acc
      | .ok (some p) => processRecords meta rest (acc ++ [p])) =
      processRecords meta rest acc
    rw [hnone]

/-- Witness for C6: a concrete empty-fields record is dropped, and the §8
dataset satisfies the invariant. -/
theorem nonempty_fields_invariant_witness :
    decodeRecord exMeta emptyRecord = .ok none ∧
    processRecords exMeta [emptyRecord] [] = processRecords exMeta [] [] ∧
    (∀ p ∈ ([exPoint] : List Point), p.fields ≠ []) := by
  have h1 : decodeRecord exMeta emptyRecord = .ok none :=
    nonempty_fields_invariant.2.1 exMeta emptyRecord
      ⟨2021, 6, 1, 0, 0, 0, true, 0, 0⟩ [] rfl rfl
  refine ⟨h1, nonempty_fields_invariant.2.2.1 exMeta emptyRecord [] [] h1, ?_⟩
  exact nonempty_fields_invariant.2.2.2 exMeta [exRecord] [] [exPoint] rfl (by simp)

/-! ### Claim C7 -/

/-- C7: `get_key_classifications` returns the distinct field keys and the
distinct tag keys, each exactly once, in first-seen order over the Points in
sequence order (so the result is a function of the dataset alone, and two
runs over the same dataset give identical ordered lists). -/
theorem schema_inference_first_seen (pts : List Point) :
    get_key_classifications pts =
      (dedupFirst (visitAll (fun m => dkeys m.fields) pts),
       dedupFirst (visitAll (fun m => dkeys m.tags) pts)) ∧
    (get_key_classifications pts).1.Nodup ∧
    (get_key_classifications pts).2.Nodup ∧
    (∀ k, k ∈ (get_key_classifications pts).1 ↔ ∃ m ∈ pts, k ∈ dkeys m.fields) ∧
    (∀ k, k ∈ (get_key_classifications pts).2 ↔ ∃ m ∈ pts, k ∈ dkeys m.tags) := by
  have heq := get_key_classifications_eq pts
  refine ⟨heq, ?_, ?_, ?_, ?_⟩
  · rw [heq]
    exact dedupFirst_nodup _
  · rw [heq]
    exact dedupFirst_nodup _
  · intro k
    rw [heq]
    exact (mem_dedupFirst k _).trans (mem_visitAll _ k pts)
  · intro k
    rw [heq]
    exact (mem_dedupFirst k _).trans (mem_visitAll _ k pts)

/-! ### Claim C8 -/

/-- C8: the JSON formatter maps each Point's `%Y-%m-%dT%H:%M:%S%z` timestamp
string to its `{Data, Status}` record verbatim, processing Points in reverse
of the stored order: with all-distinct timestamps the output has exactly one
entry per Point, and on a collision the later-processed Point overwrites the
earlier one (the lookup always yields the last-processed matching Point,
which is the first matching Point of the stored order). -/
theorem format_as_json_reverse_lastwins (pts : List Point) :
    ((pts.map fun m => strftimeZ m.time).Nodup →
      format_as_json pts =
        pts.reverse.map fun m => (strftimeZ m.time, (⟨m.fields, m.tags⟩ : JsonRecord))) ∧
    (∀ ts, dlookup (format_as_json pts) ts =
      match pts.find? (fun m => strftimeZ m.time == ts) with
      | some m => some (⟨m.fields, m.tags⟩ : JsonRecord)
      | none => none) := by
  constructor
  · intro hnodup
    have hn : (pts.reverse.map fun m => strftimeZ m.time).Nodup := by
      rw [List.map_reverse]
      exact List.nodup_reverse.2 hnodup
    unfold format_as_json
    rw [jfold_fresh pts.reverse [] (fun m hm => by simp [dkeys_nil]) hn]
    simp
  · intro ts
    unfold format_as_json
    rw [jfold_lookup pts.reverse [] ts, List.reverse_reverse]
    cases pts.find? (fun m => strftimeZ m.time == ts) <;> rfl

/-- A Point stamped midnight. -/
def ptA : Point :=
  { time := ⟨2021, 6, 1, 0, 0, 0, true, 0, 0⟩, measurement := "ACOEM UK Systems",
    fields := [("F", mkRat 1 1)], tags := [("T", "x")] }

/-- A Point stamped one in the morning. -/
def ptB : Point :=
  { time := ⟨2021, 6, 1, 1, 0, 0, true, 0, 0⟩, measurement := "ACOEM UK Systems",
    fields := [("F", mkRat 2 1)], tags := [("T", "y")] }

/-- Witness for C8 on a concrete two-Point dataset with distinct stamps. -/
theorem format_as_json_reverse_lastwins_witness :
    format_as_json [ptA, ptB] =
      [(strftimeZ ptB.time, ⟨ptB.fields, ptB.tags⟩),
       (strftimeZ ptA.time, ⟨ptA.fields, ptA.tags⟩)] ∧
    dlookup (format_as_json [ptA, ptB]) "2021-06-01T00:00:00+0000" =
      some ⟨ptA.fields, ptA.tags⟩ := by
  constructor
  · rw [(format_as_json_reverse_lastwins [ptA, ptB]).1 (by decide)]
    rfl
  · rw [(format_as_json_reverse_lastwins [ptA, ptB]).2 "2021-06-01T00:00:00+0000"]
    rfl

/-! ### Claim C1 -/

/-- A Point with one key present in both its fields and its tags. -/
def bothPt : Point :=
  { time := ⟨2021, 6, 1, 0, 0, 0, true, 0, 0⟩, measurement := "ACOEM UK Systems",
    fields := [("X", mkRat 1 1)], tags := [("X", "T")] }

/-- C1 counterexample: for a key in both fields and tags the emitted cell is
the tag's value (the merged dict is built fields-then-tags, so the tag wins),
not the field's value as claimed: at `bothPt` the cell is `T`, while the
field's value renders as `1.0`. -/
theorem csv_cell_rule_counterexample :
    csvValue bothPt "X" = "T" ∧ csvValue bothPt "X" ≠ renderNum (mkRat 1 1) :=
  ⟨rfl, by decide⟩

/-- C1 (corrected): the cell for a non-Timestamp header key is empty when the
key is in neither dict, the rendered field value unquoted when only in
fields, the tag value in double quotes when only in tags, and — because
`combined_values = {**fields, **tags}` lets tags overwrite shared keys while
the quoting test checks fields — the tag's value *unquoted* when the key is
in both. -/
theorem csv_cell_rule (m : Point) (key : String) (ht : (dkeys m.tags).Nodup) :
    (key ∉ dkeys m.fields → key ∉ dkeys m.tags → csvValue m key = "") ∧
    (∀ q, dlookup m.fields key = some q → key ∉ dkeys m.tags →
      csvValue m key = renderNum q) ∧
    (∀ v, dlookup m.tags key = some v → key ∉ dkeys m.fields →
      csvValue m key = "\"" ++ v ++ "\"") ∧
    (∀ v, key ∈ dkeys m.fields → dlookup m.tags key = some v →
      csvValue m key = v) := by
  refine ⟨?_, ?_, ?_, ?_⟩
  · intro hf htg
    have hcomb : key ∉ dkeys (combinedValues m) := by
      rw [mem_dkeys_combined]
      tauto
    simp only [csvValue]
    rw [if_neg (fun hand => hcomb hand.1), if_neg hcomb]
  · intro q hq htg
    have hf : key ∈ dkeys m.fields := mem_of_dlookup_some hq
    have hcomb : key ∈ dkeys (combinedValues m) :=
      (mem_dkeys_combined m key).2 (Or.inl hf)
    have hlook : dlookup (combinedValues m) key = some (Sum.inl q) := by
      rw [dlookup_combined m key ht, (dlookup_eq_none_iff m.tags key).2 htg, hq]
      rfl
    simp only [csvValue]
    rw [if_pos ⟨hcomb, hf⟩, hlook]
    rfl
  · intro v hv hf
    have htg : key ∈ dkeys m.tags := mem_of_dlookup_some hv
    have hcomb : key ∈ dkeys (combinedValues m) :=
      (mem_dkeys_combined m key).2 (Or.inr htg)
    have hlook : dlookup (combinedValues m) key = some (Sum.inr v) := by
      rw [dlookup_combined m key ht, hv]
    simp only [csvValue]
    rw [if_neg (fun hand => hf hand.2), if_pos hcomb, hlook]
    rfl
  · intro v hf hv
    have hcomb : key ∈ dkeys (combinedValues m) :=
      (mem_dkeys_combined m key).2 (Or.inl hf)
    have hlook : dlookup (combinedValues m) key = some (Sum.inr v) := by
      rw [dlookup_combined m key ht, hv]
    simp only [csvValue]
    rw [if_pos ⟨hcomb, hf⟩, hlook]
    rfl

/-- A Point exercising all four cell cases. -/
def wPt : Point :=
  { time := ⟨2021, 6, 1, 0, 0, 0, true, 0, 0⟩, measurement := "ACOEM UK Systems",
    fields := [("F", mkRat 1 1), ("B", mkRat 2 1)], tags := [("T", "t"), ("B", "bb")] }

/-- Witness for the corrected C1, one concrete key per case. -/
theorem csv_cell_rule_witness :
    csvValue wPt "Z" = "" ∧ csvValue wPt "F" = renderNum (mkRat 1 1) ∧
    csvValue wPt "T" = "\"" ++ "t" ++ "\"" ∧ csvValue wPt "B" = "bb" :=
  ⟨(csv_cell_rule wPt "Z" (by decide)).1 (by decide) (by decide),
   (csv_cell_rule wPt "F" (by decide)).2.1 (mkRat 1 1) rfl (by decide),
   (csv_cell_rule wPt "T" (by decide)).2.2.1 "t" rfl (by decide),
   (csv_cell_rule wPt "B" (by decide)).2.2.2 "bb" (by decide) rfl⟩

/-! ### Claim C2 -/

/-- The CSV output the spec's §8 example asserts (units without brackets). -/
def claimedCsv : String :=
  "Timestamp, PM25 PreScaled ug/m3, PM25 Scaled ug/m3, PM25 Flag, PM25 Slope ug/m3, PM25 Offset ug/m3, SerialNumber\n2021-06-01 00:00:00, 10.0, 9.5, \"Valid\", 1.0, 0.1, \"ABC123\"\n"

/-- The CSV output the code produces (units kept bracketed, as in the field
keys, so the measurement columns line up with the Point's field keys). -/
def actualCsv : String :=
  "Timestamp, PM25 PreScaled [ug/m3], PM25 Scaled [ug/m3], PM25 Flag, PM25 Slope [ug/m3], PM25 Offset [ug/m3], SerialNumber\n2021-06-01 00:00:00, 10.0, 9.5, \"Valid\", 1.0, 0.1, \"ABC123\"\n"

/-- C2 counterexample: the §8 record decodes to exactly `exPoint`, but the
CSV emitted for that one-Point dataset is not the claimed text — the header
units keep their brackets (`PM25 PreScaled [ug/m3]`, …), unlike the claimed
`PM25 PreScaled ug/m3`. -/
theorem csv_example_counterexample :
    processRecords exMeta [exRecord] [] = .ok [exPoint] ∧
    format_as_csv [exPoint] (get_key_classifications [exPoint]) ≠ claimedCsv :=
  ⟨rfl, by decide⟩

/-- C2 (amended): for the dataset holding exactly the Point decoded from the
§8 record, the CSV output is the header
`Timestamp, PM25 PreScaled [ug/m3], PM25 Scaled [ug/m3], PM25 Flag,
PM25 Slope [ug/m3], PM25 Offset [ug/m3], SerialNumber` followed by the data
row `2021-06-01 00:00:00, 10.0, 9.5, "Valid", 1.0, 0.1, "ABC123"`. -/
theorem csv_example_amended :
    processRecords exMeta [exRecord] [] = .ok [exPoint] ∧
    format_as_csv [exPoint] (get_key_classifications [exPoint]) = actualCsv :=
  ⟨rfl, by decide⟩

end Acoem
